import Mathlib

/-!
Verification of the craft-rs level crate: the palette containers of
`src/level/src/palette.rs` and the flat-format chunk column of
`src/level/src/chunk.rs`, embedded shallowly.  Machine integers (`u64`,
`usize`, `u16`) are modelled as `Nat`; `Vec` is a `List` together with an
explicit `cap` field tracking `Vec::capacity` as managed by
`reserve_exact`; panics are modelled as `Except` errors using the error
taxonomy of the specification.
-/

/-- Error kinds, following §7 of the specification.  `outOfBounds` is the
"out of bounds" panic of get/set/swap, `paletteOverflow` the
"bits cannot exceed 3" panic inside the biome set loop,
`preconditionViolated` the construction-time bit-width check,
`valueIndexOutOfBounds` the `Vec` indexing panic inside `Palette::value`,
and `loopLimit` is an artifact of bounding the source's `loop` with fuel
(the promotion chain of either container has length at most 6, so with the
fuel used below this error is unreachable). -/
inductive PaletteError where
  | outOfBounds
  | paletteOverflow
  | preconditionViolated
  | valueIndexOutOfBounds
  | loopLimit
deriving DecidableEq, Repr

/-- Modelled from the spec: `PackedBits<N>` from `crate::bitpack`, whose
source file is not part of the snapshot (only `palette.rs` uses it).  Spec
§4.1 gives its contract: `N` logical entries of `bits` bits each; `set`
masks the value to the current width; `change_bits` rebuilds the storage
and "after the call, all entries are zero; the old contents are
discarded"; `new` fails when asked for more than 64 bits. -/
structure PackedBits (N : Nat) where
  bits : Nat
  entries : List Nat
deriving DecidableEq, Repr

/-- Modelled from the spec: `PackedBits::new_unchecked` (all entries zero). -/
def PackedBits.newUnchecked (N b : Nat) : PackedBits N :=
  ⟨b, List.replicate N 0⟩

/-- Modelled from the spec: `PackedBits::new`, *PreconditionViolated* when
`b > 64`. -/
def PackedBits.new (N b : Nat) : Except PaletteError (PackedBits N) :=
  if 64 < b then .error .preconditionViolated else .ok (PackedBits.newUnchecked N b)

/-- Modelled from the spec: `PackedBits::get_unchecked`. -/
def PackedBits.getUnchecked {N : Nat} (d : PackedBits N) (i : Nat) : Nat :=
  d.entries.getD i 0

/-- Modelled from the spec: `PackedBits::set_unchecked`; the value is masked
to the current bit width before writing. -/
def PackedBits.setUnchecked {N : Nat} (d : PackedBits N) (i v : Nat) : PackedBits N :=
  ⟨d.bits, d.entries.set i (v % 2 ^ d.bits)⟩

/-- Modelled from the spec: `PackedBits::set`, *OutOfBounds* when `i ≥ N`. -/
def PackedBits.set {N : Nat} (d : PackedBits N) (i v : Nat) : Except PaletteError (PackedBits N) :=
  if N ≤ i then .error .outOfBounds else .ok (d.setUnchecked i v)

/-- Modelled from the spec: `PackedBits::change_bits`; the storage is
rebuilt for the new width and all entries are zero afterwards. -/
def PackedBits.changeBits {N : Nat} (_ : PackedBits N) (b : Nat) : PackedBits N :=
  ⟨b, List.replicate N 0⟩

/-- `enum IndexOrBits` of `palette.rs`. -/
inductive IndexOrBits where
  | index (i : Nat)
  | bits (b : Nat)
deriving DecidableEq, Repr

/-- `struct SingleValuePalette(u64)`. -/
structure SingleValuePalette where
  val : Nat
deriving DecidableEq, Repr

/-- `SingleValuePalette::index`. -/
def SingleValuePalette.index (p : SingleValuePalette) (state : Nat) : IndexOrBits :=
  if p.val = state then .index 0 else .bits 1

/-- `SingleValuePalette::value`; the panic on a nonzero index is the
`valueIndexOutOfBounds` error. -/
def SingleValuePalette.value (p : SingleValuePalette) (i : Nat) : Except PaletteError Nat :=
  if i = 0 then .ok p.val else .error .valueIndexOutOfBounds

/-- The first position of `state` in `values`, scanning from the front:
the `for i in 0..self.values.len()` loop of `LinearPalette::index`. -/
def scanIdx (state : Nat) : List Nat → Option Nat
  | [] => none
  | x :: rest => if x = state then some 0 else (scanIdx state rest).map (· + 1)

/-- `struct LinearPalette { values: Vec<u64>, bits: usize }`; `cap` tracks
`values.capacity()` (maintained exactly by `reserve_exact`, as the
source's debug assertions assume). -/
structure LinearPalette where
  values : List Nat
  cap : Nat
  bits : Nat
deriving DecidableEq, Repr

/-- `LinearPalette::index`: scan for the value, push it if there is spare
capacity, otherwise request `bits + 1` bits; returns the possibly-mutated
palette alongside the result. -/
def LinearPalette.index (p : LinearPalette) (state : Nat) : IndexOrBits × LinearPalette :=
  match scanIdx state p.values with
  | some i => (.index i, p)
  | none =>
    let len := p.values.length
    if len < p.cap then (.index len, { p with values := p.values ++ [state] })
    else (.bits (p.bits + 1), p)

/-- `LinearPalette::value`: `self.values[index]`, whose out-of-range panic
is the `valueIndexOutOfBounds` error. -/
def LinearPalette.value (p : LinearPalette) (i : Nat) : Except PaletteError Nat :=
  match p.values.get? i with
  | some v => .ok v
  | none => .error .valueIndexOutOfBounds

/-- Lookup in the `BTreeMap<u64, usize>` model (an association list whose
`insert` overwrites). -/
def mapGet (m : List (Nat × Nat)) (k : Nat) : Option Nat :=
  (m.find? (fun e => e.1 == k)).map (fun e => e.2)

/-- Insert into the `BTreeMap<u64, usize>` model, overwriting any previous
binding of the key. -/
def mapInsert (m : List (Nat × Nat)) (k v : Nat) : List (Nat × Nat) :=
  (k, v) :: m.filter (fun e => e.1 != k)

/-- `struct MappedPalette { indices: BTreeMap<u64, usize>, inner: LinearPalette }`. -/
structure MappedPalette where
  indices : List (Nat × Nat)
  inner : LinearPalette
deriving DecidableEq, Repr

/-- `MappedPalette::index`.  On a miss with spare capacity the source pushes
`state` and then records `self.inner.values.len()` — i.e. the length *after*
the push — in the side map, while reporting `initial_len` to the caller. -/
def MappedPalette.index (p : MappedPalette) (state : Nat) : IndexOrBits × MappedPalette :=
  match mapGet p.indices state with
  | some v => (.index v, p)
  | none =>
    let initialLen := p.inner.values.length
    if initialLen < p.inner.cap then
      let values := p.inner.values ++ [state]
      (.index initialLen,
        { indices := mapInsert p.indices state values.length,
          inner := { p.inner with values := values } })
    else (.bits (p.inner.bits + 1), p)

/-- `MappedPalette::value`. -/
def MappedPalette.value (p : MappedPalette) (i : Nat) : Except PaletteError Nat :=
  p.inner.value i

/-- `Vec::reserve_exact(additional)` on a vector of length `len` and
capacity `cap`: the capacity becomes `len + additional` unless it was
already at least that. -/
def reserveExact (cap len additional : Nat) : Nat :=
  max cap (len + additional)

/-- `enum BiomePalette<N>`. -/
inductive BiomePalette (N : Nat) where
  | singleValue (p : SingleValuePalette)
  | linear (p : LinearPalette) (data : PackedBits N)
deriving DecidableEq, Repr

/-- `struct BiomePaletteContainer<N>`. -/
structure BiomePaletteContainer (N : Nat) where
  palette : BiomePalette N
deriving DecidableEq, Repr

/-- `BiomePaletteContainer::new`. -/
def BiomePaletteContainer.new (N v : Nat) : BiomePaletteContainer N :=
  ⟨.singleValue ⟨v⟩⟩

/-- `BiomePaletteContainer::with_bits_unchecked`: for `bits = 0` a
single-value palette; otherwise a linear palette with an empty `values`
vector of capacity `2^bits` (the `value` argument is not stored). -/
def BiomePaletteContainer.withBitsUnchecked (N bits v : Nat) : BiomePaletteContainer N :=
  match bits with
  | 0 => BiomePaletteContainer.new N v
  | b => ⟨.linear ⟨[], 2 ^ b, b⟩ (PackedBits.newUnchecked N b)⟩

/-- `BiomePaletteContainer::with_bits`: panics ("bits cannot exceed 3",
i.e. *PreconditionViolated*) when `bits > 3`. -/
def BiomePaletteContainer.withBits (N bits v : Nat) :
    Except PaletteError (BiomePaletteContainer N) :=
  if 3 < bits then .error .preconditionViolated
  else .ok (BiomePaletteContainer.withBitsUnchecked N bits v)

/-- `BiomePaletteContainer::get_unchecked`. -/
def BiomePaletteContainer.getUnchecked {N : Nat} (c : BiomePaletteContainer N) (i : Nat) :
    Except PaletteError Nat :=
  match c.palette with
  | .singleValue p => .ok p.val
  | .linear p data => p.value (data.getUnchecked i)

/-- `BiomePaletteContainer::get`: *OutOfBounds* when `i ≥ N`. -/
def BiomePaletteContainer.get {N : Nat} (c : BiomePaletteContainer N) (i : Nat) :
    Except PaletteError Nat :=
  if N ≤ i then .error .outOfBounds else c.getUnchecked i

/-- The `loop` of `BiomePaletteContainer::set_unchecked`, with fuel (the
chain SingleValue → Linear(1) → Linear(2) → Linear(3) has length at most 3,
so fuel 4 is never exhausted).  Returns the result together with the final
palette state, so that a panic leaves the state observable. -/
def BiomePalette.setLoop {N : Nat} (fuel : Nat) (pal : BiomePalette N) (i v : Nat) :
    Except PaletteError Unit × BiomePalette N :=
  match fuel with
  | 0 => (.error .loopLimit, pal)
  | fuel + 1 =>
    match pal with
    | .singleValue p =>
      match p.index v with
      | .index _ => (.ok (), pal)
      | .bits b =>
        BiomePalette.setLoop fuel
          (.linear ⟨[p.val], 2, b⟩ (PackedBits.newUnchecked N 1)) i v
    | .linear p data =>
      match p.index v with
      | (.index idx, p') => (.ok (), .linear p' (data.setUnchecked i idx))
      | (.bits b, p') =>
        if 3 < b then (.error .paletteOverflow, .linear p' data)
        else
          BiomePalette.setLoop fuel
            (.linear ⟨p'.values, reserveExact p'.cap p'.values.length p'.cap, b⟩
              (data.changeBits b)) i v

/-- `BiomePaletteContainer::set`: *OutOfBounds* when `i ≥ N` (the panic
fires before any mutation, so the container is returned unchanged). -/
def BiomePaletteContainer.set {N : Nat} (c : BiomePaletteContainer N) (i v : Nat) :
    Except PaletteError Unit × BiomePaletteContainer N :=
  if N ≤ i then (.error .outOfBounds, c)
  else
    let r := BiomePalette.setLoop 4 c.palette i v
    (r.1, ⟨r.2⟩)

/-- The `values` list of the current palette, when it has one. -/
def BiomePaletteContainer.paletteValues {N : Nat} (c : BiomePaletteContainer N) :
    Option (List Nat) :=
  match c.palette with
  | .singleValue _ => none
  | .linear p _ => some p.values

/-- `enum StatePalette<N>`. -/
inductive StatePalette (N : Nat) where
  | singleValue (p : SingleValuePalette)
  | linear (p : LinearPalette) (data : PackedBits N)
  | mapped (p : MappedPalette) (data : PackedBits N)
  | global (data : PackedBits N)
deriving DecidableEq, Repr

/-- `struct StatePaletteContainer<N>`. -/
structure StatePaletteContainer (N : Nat) where
  palette : StatePalette N
deriving DecidableEq, Repr

/-- `StatePaletteContainer::new`. -/
def StatePaletteContainer.new (N v : Nat) : StatePaletteContainer N :=
  ⟨.singleValue ⟨v⟩⟩

/-- `StatePaletteContainer::with_bits`: bits 0 → single value; 1..=4 →
linear at 4 bits (empty `values`, capacity 16); 5..=8 → mapped at the
requested bits (empty `values`, capacity `2^bits`, empty map); anything
larger → global with `PackedBits::new(bits)` — note the source passes the
*requested* bit count through. -/
def StatePaletteContainer.withBits (N bits v : Nat) :
    Except PaletteError (StatePaletteContainer N) :=
  if bits = 0 then .ok (StatePaletteContainer.new N v)
  else if bits ≤ 4 then
    .ok ⟨.linear ⟨[], 2 ^ 4, 4⟩ (PackedBits.newUnchecked N 4)⟩
  else if bits ≤ 8 then
    .ok ⟨.mapped ⟨[], ⟨[], 2 ^ bits, bits⟩⟩ (PackedBits.newUnchecked N bits)⟩
  else
    (PackedBits.new N bits).map (fun d => ⟨.global d⟩)

/-- `StatePaletteContainer::get_unchecked`. -/
def StatePaletteContainer.getUnchecked {N : Nat} (c : StatePaletteContainer N) (i : Nat) :
    Except PaletteError Nat :=
  match c.palette with
  | .singleValue p => .ok p.val
  | .linear p data => p.value (data.getUnchecked i)
  | .mapped p data => p.value (data.getUnchecked i)
  | .global data => .ok (data.getUnchecked i)

/-- `StatePaletteContainer::get`: *OutOfBounds* when `i ≥ N`. -/
def StatePaletteContainer.get {N : Nat} (c : StatePaletteContainer N) (i : Nat) :
    Except PaletteError Nat :=
  if N ≤ i then .error .outOfBounds else c.getUnchecked i

/-- The Mapped → Global promotion's copy loop: every logical entry is read
through the outgoing mapped palette and written into a fresh 15-bit array
(`PackedBits::new(15)` cannot fail). -/
def StatePalette.globalCopy {N : Nat} (p : MappedPalette) (data : PackedBits N) :
    Except PaletteError (PackedBits N) :=
  (List.range N).foldlM
    (fun acc i => (p.value (data.getUnchecked i)).map (fun v => acc.setUnchecked i v))
    (PackedBits.newUnchecked N 15)

/-- The `loop` of `StatePaletteContainer::set_unchecked`, with fuel (the
longest promotion chain, Mapped(5) → Mapped(6) → Mapped(7) → Mapped(8) →
Global, has length 5, so fuel 8 is never exhausted).  Returns the result
together with the final palette state. -/
def StatePalette.setLoop {N : Nat} (fuel : Nat) (pal : StatePalette N) (i v : Nat) :
    Except PaletteError Unit × StatePalette N :=
  match fuel with
  | 0 => (.error .loopLimit, pal)
  | fuel + 1 =>
    match pal with
    | .singleValue p =>
      match p.index v with
      | .index _ => (.ok (), pal)
      | .bits _ =>
        StatePalette.setLoop fuel
          (.linear ⟨[p.val], 2 ^ 4, 4⟩ (PackedBits.newUnchecked N 4)) i v
    | .linear p data =>
      match p.index v with
      | (.index idx, p') =>
        match data.set i idx with
        | .ok d => (.ok (), .linear p' d)
        | .error e => (.error e, .linear p' data)
      | (.bits b, p') =>
        StatePalette.setLoop fuel
          (.mapped ⟨[], ⟨p'.values, reserveExact p'.cap p'.values.length (2 ^ 4), 5⟩⟩
            (data.changeBits b)) i v
    | .mapped p data =>
      match p.index v with
      | (.index idx, p') => (.ok (), .mapped p' (data.setUnchecked i idx))
      | (.bits b, p') =>
        if b = 9 then
          match StatePalette.globalCopy p' data with
          | .ok newData => StatePalette.setLoop fuel (.global newData) i v
          | .error e => (.error e, .mapped p' data)
        else
          StatePalette.setLoop fuel
            (.mapped ⟨p'.indices, ⟨p'.inner.values, p'.inner.cap, b⟩⟩ (data.changeBits b)) i v
    | .global data => (.ok (), .global (data.setUnchecked i v))

/-- `StatePaletteContainer::set`: *OutOfBounds* when `i ≥ N` (the panic
fires before any mutation, so the container is returned unchanged). -/
def StatePaletteContainer.set {N : Nat} (c : StatePaletteContainer N) (i v : Nat) :
    Except PaletteError Unit × StatePaletteContainer N :=
  if N ≤ i then (.error .outOfBounds, c)
  else
    let r := StatePalette.setLoop 8 c.palette i v
    (r.1, ⟨r.2⟩)

/-- The `values` list of the current palette, when it has one. -/
def StatePaletteContainer.paletteValues {N : Nat} (c : StatePaletteContainer N) :
    Option (List Nat) :=
  match c.palette with
  | .singleValue _ => none
  | .linear p _ => some p.values
  | .mapped p _ => some p.inner.values
  | .global _ => none

/-- Apply a sequence of `set` calls to a state container, keeping the
container state and discarding each call's result (the Rust calls are
statements). -/
def stateSetsAt {N : Nat} (c : StatePaletteContainer N) (l : List (Nat × Nat)) :
    StatePaletteContainer N :=
  l.foldl (fun c iv => (c.set iv.1 iv.2).2) c

/-- Apply a sequence of `set` calls to a biome container. -/
def biomeSetsAt {N : Nat} (c : BiomePaletteContainer N) (l : List (Nat × Nat)) :
    BiomePaletteContainer N :=
  l.foldl (fun c iv => (c.set iv.1 iv.2).2) c

/-- Decode errors of the flat-format chunk decoder (§7): the cursor ran
short mid-section. -/
inductive DecodeError where
  | decodeShort
deriving DecidableEq, Repr

/-- `bit_at` of `chunk.rs`: `(val >> idx) & 0b1 != 0`. -/
def bitAt (val idx : Nat) : Bool :=
  ((val >>> idx) &&& 1) != 0

/-- `struct ChunkSection0`: each field is a reference into the column's
arena, modelled as the byte offset of the field inside the arena buffer
(the field lengths 4096 / 2048 are fixed by the types). -/
structure ChunkSection0 where
  blocks : Nat
  metadata : Nat
  light : Nat
  skyLight : Option Nat
  add : Option Nat
  biomes : Nat
deriving DecidableEq, Repr

/-- `struct ChunkSection0Decode`: each field is a zero-copy reference into
the cursor's input buffer, modelled as the byte offset at which the field
starts. -/
structure ChunkSection0Decode where
  blocks : Nat
  metadata : Nat
  light : Nat
  skyLight : Option Nat
  add : Option Nat
  biomes : Nat
deriving DecidableEq, Repr

/-- Modelled from the spec: the zero-copy `decode` of a fixed-length
`&ByteArray<n>` / `&HalfByteArray<n>` against a cursor (`crate::containers`
and the `miners::encoding` collaborator are not part of the snapshot; §6
assumes fixed-length byte-array reads as black boxes).  It yields the
offset of the field and the advanced cursor position, failing with
*DecodeShort* when the cursor is exhausted. -/
def readArr (data : List Nat) (pos n : Nat) : Except DecodeError (Nat × Nat) :=
  if pos + n ≤ data.length then .ok (pos, pos + n) else .error .decodeShort

/-- `ChunkSection0Decode::from_reader`: reads, in order, `blocks[4096]`,
`metadata[2048]`, `light[2048]`, then `sky_light[2048]` iff its flag, then
`add[2048]` iff its flag, then `biomes[2048]`. -/
def ChunkSection0Decode.fromReader (data : List Nat) (pos : Nat) (skyLight add : Bool) :
    Except DecodeError (ChunkSection0Decode × Nat) := do
  let (blocks, pos) ← readArr data pos 4096
  let (metadata, pos) ← readArr data pos 2048
  let (light, pos) ← readArr data pos 2048
  let (skyF, pos) ←
    if skyLight then (readArr data pos 2048).map (fun r => (some r.1, r.2))
    else pure (none, pos)
  let (addF, pos) ←
    if add then (readArr data pos 2048).map (fun r => (some r.1, r.2))
    else pure (none, pos)
  let (biomes, pos) ← readArr data pos 2048
  pure (⟨blocks, metadata, light, skyF, addF, biomes⟩, pos)

/-- The first pass of `ChunkColumn0::from_reader`: walk the section indices
in order and decode a `ChunkSection0Decode` for every bit set in the
section bitmask, threading the cursor position. -/
def decodeSecs (data : List Nat) (bm am sm : Nat) :
    List Nat → Nat → Except DecodeError (List (Option ChunkSection0Decode) × Nat)
  | [], pos => .ok ([], pos)
  | i :: rest, pos =>
    if bitAt bm i then do
      let (d, pos') ← ChunkSection0Decode.fromReader data pos (bitAt sm i) (bitAt am i)
      let (ds, pos'') ← decodeSecs data bm am sm rest pos'
      pure (some d :: ds, pos'')
    else do
      let (ds, pos'') ← decodeSecs data bm am sm rest pos
      pure (none :: ds, pos'')

/-- The arena footprint of one section: `4096 + 3·2048` plus `2048` for each
optional array that is present. -/
def secSize (sky add : Bool) : Nat :=
  10240 + (if sky then 2048 else 0) + (if add then 2048 else 0)

/-- The sequential arena walk shared by the second pass of `from_reader`
(`new_field`) and by `reallocate` (`update_ref`): starting at offset `p`,
lay out `blocks`, `metadata`, `light`, optionally `sky_light`, optionally
`add`, then `biomes`, returning the section's reference struct and the
offset just past it. -/
def layoutFields (p : Nat) (sky add : Bool) : ChunkSection0 × Nat :=
  let blocks := p
  let p1 := p + 4096
  let metadata := p1
  let p2 := p1 + 2048
  let light := p2
  let p3 := p2 + 2048
  let skyF := if sky then some p3 else none
  let p4 := if sky then p3 + 2048 else p3
  let addF := if add then some p4 else none
  let p5 := if add then p4 + 2048 else p4
  (⟨blocks, metadata, light, skyF, addF, p5⟩, p5 + 2048)

/-- The `n` bytes of a buffer starting at offset `off` (the bytes a field
reference denotes). -/
def fieldBytes (buf : List Nat) (off n : Nat) : List Nat :=
  (buf.drop off).take n

/-- The bytes `new_field` copies into the arena for one decoded section, in
field order. -/
def decBytes (data : List Nat) (d : ChunkSection0Decode) : List Nat :=
  fieldBytes data d.blocks 4096 ++ fieldBytes data d.metadata 2048 ++
  fieldBytes data d.light 2048 ++
  (match d.skyLight with | some o => fieldBytes data o 2048 | none => []) ++
  (match d.add with | some o => fieldBytes data o 2048 | none => []) ++
  fieldBytes data d.biomes 2048

/-- The second pass of `from_reader`: walk the decoded slots in order,
laying out each present section at the running arena offset and emitting
the bytes copied into the arena. -/
def buildGo (data : List Nat) :
    List (Option ChunkSection0Decode) → Nat → List (Option ChunkSection0) × List Nat
  | [], _ => ([], [])
  | none :: rest, p =>
    let r := buildGo data rest p
    (none :: r.1, r.2)
  | some d :: rest, p =>
    let sp := layoutFields p d.skyLight.isSome d.add.isSome
    let r := buildGo data rest sp.2
    (some sp.1 :: r.1, decBytes data d ++ r.2)

/-- `struct ChunkColumn0`: the owned arena buffer, its recorded size, and
the 16 optional section reference structs.  (The source keeps the buffer
behind `Option<NonNull<u8>>`; a column that has no buffer has `size = 0`
and no sections, so the empty list represents it faithfully.) -/
structure ChunkColumn0 where
  buf : List Nat
  size : Nat
  sections : List (Option ChunkSection0)
deriving DecidableEq, Repr

/-- `ChunkColumn0::MINIMUM_SECTION_SIZE`. -/
def ChunkColumn0.minimumSectionSize : Nat := 4096 + 3 * 2048

/-- `ChunkColumn0::from_reader`: decode every section named by the bitmask
(first pass), compute the arena size from the section and flag counts,
then lay the sections out in one contiguous buffer (second pass). -/
def ChunkColumn0.fromReader (data : List Nat) (pos : Nat) (bitmask addMask skyMask : Nat) :
    Except DecodeError (ChunkColumn0 × Nat) := do
  let (decs, pos') ← decodeSecs data bitmask addMask skyMask (List.range 16) pos
  let present := decs.filterMap id
  let nsections := present.length
  let nsky := (present.filter (fun d => d.skyLight.isSome)).length
  let nadd := (present.filter (fun d => d.add.isSome)).length
  let size := nsections * ChunkColumn0.minimumSectionSize + nsky * 2048 + nadd * 2048
  let sb := buildGo data decs 0
  pure ({ buf := sb.2, size := size, sections := sb.1 }, pos')

/-- The section-rebuilding walk of `reallocate` (`update_ref`): recompute
every present section's field references from offset 0 of the new buffer,
in slot order, skipping the optional fields the old section did not have. -/
def rebuildGo : List (Option ChunkSection0) → Nat → List (Option ChunkSection0)
  | [], _ => []
  | none :: rest, p => none :: rebuildGo rest p
  | some s :: rest, p =>
    let sp := layoutFields p s.skyLight.isSome s.add.isSome
    some sp.1 :: rebuildGo rest sp.2

/-- `ChunkColumn0::reallocate::<M>`: `assert!(M != 0)` (modelled as `none`),
allocate `size + M` bytes, copy the first `size` bytes verbatim (the fresh
tail is uninitialised, modelled as zeros), rebuild the section references,
and return the new column together with the view `(old_size, M)` of the
fresh tail. -/
def ChunkColumn0.reallocate (M : Nat) (c : ChunkColumn0) :
    Option (ChunkColumn0 × (Nat × Nat)) :=
  if M = 0 then none
  else
    some ({ buf := c.buf.take c.size ++ List.replicate M 0,
            size := c.size + M,
            sections := rebuildGo c.sections 0 },
          (c.size, M))

theorem scanIdx_eq_none_of_not_mem {v : Nat} {l : List Nat} (h : v ∉ l) :
    scanIdx v l = none := by
  induction l with
  | nil => rfl
  | cons x rest ih =>
    have hx : ¬ x = v := by
      intro he
      exact h (by simp [he])
    have hr : v ∉ rest := by
      intro hm
      exact h (by simp [hm])
    simp [scanIdx, hx, ih hr]

theorem getD_replicate_zero (n i : Nat) : (List.replicate n (0 : Nat)).getD i 0 = 0 := by
  induction n generalizing i with
  | zero => rfl
  | succ n ih =>
    cases i with
    | zero => rfl
    | succ i => exact ih i

/-- C1: the claim that `set(i, v)` followed by `get(i)` returns `v` after any
preceding sequence of sets fails on the code: in a Mapped state palette the
side map records the post-push length instead of the reported index, so
re-setting an already-interned value stores an index one past the value's
slot.  Concretely, on `StatePaletteContainer<3>::with_bits(5, 0)` the
sequence `set(0,42); set(1,43); set(2,42)` makes `get(2)` return 43, not 42. -/
theorem stateContainer_repeatValue_get_bug :
    (StatePaletteContainer.withBits 3 5 0).map
        (fun c => (stateSetsAt c [(0, 42), (1, 43), (2, 42)]).get 2) = .ok (.ok 43) ∧
    (43 : Nat) ≠ 42 :=
  ⟨rfl, by decide⟩

/-- C2: the claim that `set(i, v)` never changes `get(j)` for `j ≠ i` fails
on the code with the spec-modelled `change_bits` (spec §4.1: it zeroes the
entries): on `BiomePaletteContainer<2>::new(0)`, after `set(0, 1)` a
`get(0)` returns 1, but the widening promotion inside `set(1, 2)` calls
`change_bits` without a read-back, after which `get(0)` returns 0. -/
theorem biomeContainer_promotion_frame_bug :
    (biomeSetsAt (BiomePaletteContainer.new 2 0) [(0, 1)]).get 0 = .ok 1 ∧
    (biomeSetsAt (BiomePaletteContainer.new 2 0) [(0, 1), (1, 2)]).get 0 = .ok 0 ∧
    (0 : Nat) ≠ 1 :=
  ⟨rfl, rfl, by decide⟩

/-- C3: the claim that `MappedPalette::index` records in the side map the
same index it reports fails on the code: on a miss it reports
`initial_len` but records `values.len()` taken *after* the push.  On an
empty mapped palette, `index(7)` reports index 0 while recording `7 → 1`,
so the next `index(7)` reports 1. -/
theorem mappedPalette_index_offByOne_bug :
    MappedPalette.index ⟨[], ⟨[], 32, 5⟩⟩ 7 = (.index 0, ⟨[(7, 1)], ⟨[7], 32, 5⟩⟩) ∧
    (MappedPalette.index ⟨[(7, 1)], ⟨[7], 32, 5⟩⟩ 7).1 = .index 1 ∧
    (1 : Nat) ≠ 0 :=
  ⟨rfl, rfl, by decide⟩

/-- C4: the claim that `values` stays pairwise distinct in every reachable
Linear or Mapped state fails on the code: the Linear → Mapped promotion
starts from a fresh empty map without seeding it with the inherited
values, and `MappedPalette::index` never scans `values`, so re-setting an
inherited value appends a duplicate.  After filling a
`StatePaletteContainer<1>` with the 17 distinct values 0..16 and then
setting the inherited value 3 again, `values` holds 3 twice. -/
theorem mappedPalette_duplicate_values_bug :
    StatePaletteContainer.paletteValues (stateSetsAt (StatePaletteContainer.new 1 0)
        [(0, 1), (0, 2), (0, 3), (0, 4), (0, 5), (0, 6), (0, 7), (0, 8), (0, 9), (0, 10),
         (0, 11), (0, 12), (0, 13), (0, 14), (0, 15), (0, 16), (0, 3)]) =
      some [0, 1, 2, 3, 4, 5, 6, 7, 8, 9, 10, 11, 12, 13, 14, 15, 16, 3] ∧
    ¬ ([0, 1, 2, 3, 4, 5, 6, 7, 8, 9, 10, 11, 12, 13, 14, 15, 16, 3] : List Nat).Nodup :=
  ⟨rfl, by decide⟩

/-- C5 counterexample: `with_bits(9, 0)` builds a Global container whose
packed array uses the *requested* 9 bits per entry, not 15. -/
theorem stateWithBits_global_requested_bits_cex :
    (StatePaletteContainer.withBits 1 9 0).map (fun c => c.palette) =
      .ok (.global ⟨9, [0]⟩) ∧ (9 : Nat) ≠ 15 :=
  ⟨rfl, by decide⟩

/-- C5 as amended: for every requested `bits` with `9 ≤ bits ≤ 64`,
`with_bits(bits, v)` constructs a Global-variant container whose
bit-packed index array uses the requested number of bits per entry (the
15-bit width appears only in the Mapped → Global promotion inside `set`). -/
theorem stateWithBits_global_requested_bits {N : Nat} (bits v : Nat)
    (h9 : 9 ≤ bits) (h64 : bits ≤ 64) :
    StatePaletteContainer.withBits N bits v = .ok ⟨.global ⟨bits, List.replicate N 0⟩⟩ := by
  have h0 : ¬ bits = 0 := by omega
  have h4 : ¬ bits ≤ 4 := by omega
  have h8 : ¬ bits ≤ 8 := by omega
  have h64n : ¬ 64 < bits := by omega
  simp [StatePaletteContainer.withBits, PackedBits.new, PackedBits.newUnchecked,
    h0, h4, h8, h64n, Except.map]

/-- C5 witness: the amended statement at `N = 1`, `bits = 9`, `v = 0`. -/
theorem stateWithBits_global_requested_bits_witness :
    (9 : Nat) ≤ 9 ∧ (9 : Nat) ≤ 64 ∧
    StatePaletteContainer.withBits 1 9 0 = .ok ⟨.global ⟨9, List.replicate 1 0⟩⟩ :=
  ⟨by decide, by decide, stateWithBits_global_requested_bits 9 0 (by decide) (by decide)⟩

/-- C8: a biome container whose linear palette already holds 8 distinct
values (bits = 3, capacity 8 exhausted) rejects a set that would introduce
a ninth distinct value with *PaletteOverflow*, leaving the container
unchanged. -/
theorem biome_ninth_value_overflow {N : Nat} (p : LinearPalette) (data : PackedBits N)
    (i v : Nat) (hlen : p.values.length = 8) (hcap : p.cap = 8) (hbits : p.bits = 3)
    (_hnd : p.values.Nodup) (hv : v ∉ p.values) (hi : i < N) :
    ((⟨.linear p data⟩ : BiomePaletteContainer N).set i v).1 = .error .paletteOverflow ∧
    ((⟨.linear p data⟩ : BiomePaletteContainer N).set i v).2 = ⟨.linear p data⟩ := by
  have hiN : ¬ N ≤ i := Nat.not_le.mpr hi
  have hscan : scanIdx v p.values = none := scanIdx_eq_none_of_not_mem hv
  constructor <;>
    simp [BiomePaletteContainer.set, hiN, BiomePalette.setLoop, LinearPalette.index,
      hscan, hlen, hcap, hbits]

/-- C8 witness: the overflow at a concrete full 3-bit palette. -/
theorem biome_ninth_value_overflow_witness :
    ([0, 1, 2, 3, 4, 5, 6, 7] : List Nat).length = 8 ∧
    ((8 : Nat) ∉ ([0, 1, 2, 3, 4, 5, 6, 7] : List Nat)) ∧
    ((⟨.linear ⟨[0, 1, 2, 3, 4, 5, 6, 7], 8, 3⟩ (PackedBits.newUnchecked 1 3)⟩ :
        BiomePaletteContainer 1).set 0 8).1 = .error .paletteOverflow :=
  ⟨by decide, by decide,
    (biome_ninth_value_overflow ⟨[0, 1, 2, 3, 4, 5, 6, 7], 8, 3⟩ (PackedBits.newUnchecked 1 3)
      0 8 (by decide) (by decide) (by decide) (by decide) (by decide) (by decide)).1⟩

/-- C9: for any index `i ≥ N`, `get` fails with *OutOfBounds* on both
containers, and `set` fails with *OutOfBounds* returning the container
unchanged (the bounds check precedes every mutation), so every `get(j)`
with `j < N` and the palette variant are untouched. -/
theorem oob_get_set_error {N : Nat} (i v : Nat)
    (cb : BiomePaletteContainer N) (cs : StatePaletteContainer N) (h : N ≤ i) :
    cb.get i = .error .outOfBounds ∧ (cb.set i v).1 = .error .outOfBounds ∧
    (cb.set i v).2 = cb ∧
    cs.get i = .error .outOfBounds ∧ (cs.set i v).1 = .error .outOfBounds ∧
    (cs.set i v).2 = cs := by
  simp [BiomePaletteContainer.get, BiomePaletteContainer.set,
    StatePaletteContainer.get, StatePaletteContainer.set, h]

/-- C9 witness: out-of-bounds access on concrete one-entry containers. -/
theorem oob_get_set_error_witness :
    (1 : Nat) ≤ 1 ∧
    ((BiomePaletteContainer.new 1 0).get 1 = .error .outOfBounds ∧
     ((BiomePaletteContainer.new 1 0).set 1 5).1 = .error .outOfBounds ∧
     ((BiomePaletteContainer.new 1 0).set 1 5).2 = BiomePaletteContainer.new 1 0 ∧
     (StatePaletteContainer.new 1 0).get 1 = .error .outOfBounds ∧
     ((StatePaletteContainer.new 1 0).set 1 5).1 = .error .outOfBounds ∧
     ((StatePaletteContainer.new 1 0).set 1 5).2 = StatePaletteContainer.new 1 0) :=
  ⟨by decide,
    oob_get_set_error 1 5 (BiomePaletteContainer.new 1 0) (StatePaletteContainer.new 1 0)
      (by decide)⟩

/-- C10: `with_bits(b, v)` with `b ≥ 1` in the permitted range (biome
`b ≤ 3`, state `b ≤ 8`) discards `v`: the constructed palette's `values`
list is empty, and a `get` performed before any `set` indexes the empty
list out of bounds (the `Vec` indexing panic) instead of returning `v`. -/
theorem withBits_discards_value {N : Nat} (b bs v i : Nat)
    (hb1 : 1 ≤ b) (hb3 : b ≤ 3) (hs1 : 1 ≤ bs) (hs8 : bs ≤ 8) (hi : i < N) :
    (BiomePaletteContainer.withBits N b v).map (fun c => c.paletteValues) = .ok (some []) ∧
    (BiomePaletteContainer.withBits N b v).map (fun c => c.get i) =
      .ok (.error .valueIndexOutOfBounds) ∧
    (StatePaletteContainer.withBits N bs v).map (fun c => c.paletteValues) = .ok (some []) ∧
    (StatePaletteContainer.withBits N bs v).map (fun c => c.get i) =
      .ok (.error .valueIndexOutOfBounds) := by
  have hiN : ¬ N ≤ i := Nat.not_le.mpr hi
  obtain ⟨b', rfl⟩ : ∃ b2, b = b2 + 1 := ⟨b - 1, by omega⟩
  have hb3' : ¬ 3 < b' + 1 := by omega
  have hbs0 : ¬ bs = 0 := by omega
  refine ⟨?_, ?_, ?_, ?_⟩
  · simp [BiomePaletteContainer.withBits, hb3', BiomePaletteContainer.withBitsUnchecked,
      BiomePaletteContainer.paletteValues, Except.map]
  · simp [BiomePaletteContainer.withBits, hb3', BiomePaletteContainer.withBitsUnchecked,
      BiomePaletteContainer.get, hiN, BiomePaletteContainer.getUnchecked,
      PackedBits.newUnchecked, PackedBits.getUnchecked, getD_replicate_zero,
      LinearPalette.value, List.get?, Except.map]
  · by_cases hbs4 : bs ≤ 4 <;>
      simp [StatePaletteContainer.withBits, hbs0, hbs4, hs8,
        StatePaletteContainer.paletteValues, Except.map]
  · by_cases hbs4 : bs ≤ 4 <;>
      simp [StatePaletteContainer.withBits, hbs0, hbs4, hs8,
        StatePaletteContainer.get, hiN, StatePaletteContainer.getUnchecked,
        PackedBits.newUnchecked, PackedBits.getUnchecked, getD_replicate_zero,
        LinearPalette.value, MappedPalette.value, List.get?, Except.map]

/-- C10 witness: biome `with_bits(1, 42)` and state `with_bits(5, 42)` on a
one-entry container both hold an empty palette and panic on `get(0)`. -/
theorem withBits_discards_value_witness :
    (1 : Nat) ≤ 1 ∧ (1 : Nat) ≤ 3 ∧ (1 : Nat) ≤ 5 ∧ (5 : Nat) ≤ 8 ∧ (0 : Nat) < 1 ∧
    ((BiomePaletteContainer.withBits 1 1 42).map (fun c => c.paletteValues) = .ok (some []) ∧
     (BiomePaletteContainer.withBits 1 1 42).map (fun c => c.get 0) =
       .ok (.error .valueIndexOutOfBounds) ∧
     (StatePaletteContainer.withBits 1 5 42).map (fun c => c.paletteValues) = .ok (some []) ∧
     (StatePaletteContainer.withBits 1 5 42).map (fun c => c.get 0) =
       .ok (.error .valueIndexOutOfBounds)) :=
  ⟨by decide, by decide, by decide, by decide, by decide,
    withBits_discards_value 1 5 42 0 (by decide) (by decide) (by decide) (by decide)
      (by decide)⟩

theorem exceptBind_ok {ε α β : Type} (a : α) (f : α → Except ε β) :
    (Except.ok a >>= f) = f a := rfl

theorem exceptBind_error {ε α β : Type} (e : ε) (f : α → Except ε β) :
    ((Except.error e : Except ε α) >>= f) = .error e := rfl

theorem exceptMap_ok {ε α β : Type} (g : α → β) (a : α) :
    (Except.ok a : Except ε α).map g = .ok (g a) := rfl

theorem exceptMap_error {ε α β : Type} (g : α → β) (e : ε) :
    (Except.error e : Except ε α).map g = .error e := rfl

theorem sectionDecode_ok_spec {data : List Nat} {pos : Nat} {sky add : Bool}
    {d : ChunkSection0Decode} {pos' : Nat}
    (h : ChunkSection0Decode.fromReader data pos sky add = .ok (d, pos')) :
    d = ⟨pos, pos + 4096, pos + 6144,
         (if sky then some (pos + 8192) else none),
         (if add then some (pos + 8192 + (if sky then 2048 else 0)) else none),
         pos + 8192 + (if sky then 2048 else 0) + (if add then 2048 else 0)⟩ ∧
    pos' = pos + secSize sky add ∧
    pos + secSize sky add ≤ data.length := by
  cases sky <;> cases add
  · by_cases h1 : pos + 4096 ≤ data.length
    · by_cases h2 : pos + 4096 + 2048 ≤ data.length
      · by_cases h3 : pos + 4096 + 2048 + 2048 ≤ data.length
        · by_cases h4 : pos + 4096 + 2048 + 2048 + 2048 ≤ data.length
          · have heq : ChunkSection0Decode.fromReader data pos false false =
                .ok (⟨pos, pos + 4096, pos + 6144, none, none, pos + 8192⟩, pos + 10240) := by
              simp [ChunkSection0Decode.fromReader, readArr, h1, h2, h3, h4,
                exceptBind_ok, exceptBind_error, exceptMap_ok, exceptMap_error]
            rw [heq] at h
            simp only [Except.ok.injEq, Prod.mk.injEq] at h
            obtain ⟨hd, hp⟩ := h
            subst hd
            subst hp
            refine ⟨by simp, by simp [secSize], by simp [secSize]; omega⟩
          · simp [ChunkSection0Decode.fromReader, readArr, h1, h2, h3, h4,
              exceptBind_ok, exceptBind_error, exceptMap_ok, exceptMap_error] at h
        · simp [ChunkSection0Decode.fromReader, readArr, h1, h2, h3,
            exceptBind_ok, exceptBind_error, exceptMap_ok, exceptMap_error] at h
      · simp [ChunkSection0Decode.fromReader, readArr, h1, h2,
          exceptBind_ok, exceptBind_error, exceptMap_ok, exceptMap_error] at h
    · simp [ChunkSection0Decode.fromReader, readArr, h1,
        exceptBind_ok, exceptBind_error, exceptMap_ok, exceptMap_error] at h
  · by_cases h1 : pos + 4096 ≤ data.length
    · by_cases h2 : pos + 4096 + 2048 ≤ data.length
      · by_cases h3 : pos + 4096 + 2048 + 2048 ≤ data.length
        · by_cases h4 : pos + 4096 + 2048 + 2048 + 2048 ≤ data.length
          · by_cases h5 : pos + 4096 + 2048 + 2048 + 2048 + 2048 ≤ data.length
            · have heq : ChunkSection0Decode.fromReader data pos false true =
                  .ok (⟨pos, pos + 4096, pos + 6144, none, some (pos + 8192),
                        pos + 10240⟩, pos + 12288) := by
                simp [ChunkSection0Decode.fromReader, readArr, h1, h2, h3, h4, h5,
                  exceptBind_ok, exceptBind_error, exceptMap_ok, exceptMap_error]
              rw [heq] at h
              simp only [Except.ok.injEq, Prod.mk.injEq] at h
              obtain ⟨hd, hp⟩ := h
              subst hd
              subst hp
              refine ⟨by simp, by simp [secSize], by simp [secSize]; omega⟩
            · simp [ChunkSection0Decode.fromReader, readArr, h1, h2, h3, h4, h5,
                exceptBind_ok, exceptBind_error, exceptMap_ok, exceptMap_error] at h
          · simp [ChunkSection0Decode.fromReader, readArr, h1, h2, h3, h4,
              exceptBind_ok, exceptBind_error, exceptMap_ok, exceptMap_error] at h
        · simp [ChunkSection0Decode.fromReader, readArr, h1, h2, h3,
            exceptBind_ok, exceptBind_error, exceptMap_ok, exceptMap_error] at h
      · simp [ChunkSection0Decode.fromReader, readArr, h1, h2,
          exceptBind_ok, exceptBind_error, exceptMap_ok, exceptMap_error] at h
    · simp [ChunkSection0Decode.fromReader, readArr, h1,
        exceptBind_ok, exceptBind_error, exceptMap_ok, exceptMap_error] at h
  · by_cases h1 : pos + 4096 ≤ data.length
    · by_cases h2 : pos + 4096 + 2048 ≤ data.length
      · by_cases h3 : pos + 4096 + 2048 + 2048 ≤ data.length
        · by_cases h4 : pos + 4096 + 2048 + 2048 + 2048 ≤ data.length
          · by_cases h5 : pos + 4096 + 2048 + 2048 + 2048 + 2048 ≤ data.length
            · have heq : ChunkSection0Decode.fromReader data pos true false =
                  .ok (⟨pos, pos + 4096, pos + 6144, some (pos + 8192), none,
                        pos + 10240⟩, pos + 12288) := by
                simp [ChunkSection0Decode.fromReader, readArr, h1, h2, h3, h4, h5,
                  exceptBind_ok, exceptBind_error, exceptMap_ok, exceptMap_error]
              rw [heq] at h
              simp only [Except.ok.injEq, Prod.mk.injEq] at h
              obtain ⟨hd, hp⟩ := h
              subst hd
              subst hp
              refine ⟨by simp, by simp [secSize], by simp [secSize]; omega⟩
            · simp [ChunkSection0Decode.fromReader, readArr, h1, h2, h3, h4, h5,
                exceptBind_ok, exceptBind_error, exceptMap_ok, exceptMap_error] at h
          · simp [ChunkSection0Decode.fromReader, readArr, h1, h2, h3, h4,
              exceptBind_ok, exceptBind_error, exceptMap_ok, exceptMap_error] at h
        · simp [ChunkSection0Decode.fromReader, readArr, h1, h2, h3,
            exceptBind_ok, exceptBind_error, exceptMap_ok, exceptMap_error] at h
      · simp [ChunkSection0Decode.fromReader, readArr, h1, h2,
          exceptBind_ok, exceptBind_error, exceptMap_ok, exceptMap_error] at h
    · simp [ChunkSection0Decode.fromReader, readArr, h1,
        exceptBind_ok, exceptBind_error, exceptMap_ok, exceptMap_error] at h
  · by_cases h1 : pos + 4096 ≤ data.length
    · by_cases h2 : pos + 4096 + 2048 ≤ data.length
      · by_cases h3 : pos + 4096 + 2048 + 2048 ≤ data.length
        · by_cases h4 : pos + 4096 + 2048 + 2048 + 2048 ≤ data.length
          · by_cases h5 : pos + 4096 + 2048 + 2048 + 2048 + 2048 ≤ data.length
            · by_cases h6 : pos + 4096 + 2048 + 2048 + 2048 + 2048 + 2048 ≤ data.length
              · have heq : ChunkSection0Decode.fromReader data pos true true =
                    .ok (⟨pos, pos + 4096, pos + 6144, some (pos + 8192),
                          some (pos + 10240), pos + 12288⟩, pos + 14336) := by
                  simp [ChunkSection0Decode.fromReader, readArr, h1, h2, h3, h4, h5, h6,
                    exceptBind_ok, exceptBind_error, exceptMap_ok, exceptMap_error]
                rw [heq] at h
                simp only [Except.ok.injEq, Prod.mk.injEq] at h
                obtain ⟨hd, hp⟩ := h
                subst hd
                subst hp
                refine ⟨by simp, by simp [secSize], by simp [secSize]; omega⟩
              · simp [ChunkSection0Decode.fromReader, readArr, h1, h2, h3, h4, h5, h6,
                  exceptBind_ok, exceptBind_error, exceptMap_ok, exceptMap_error] at h
            · simp [ChunkSection0Decode.fromReader, readArr, h1, h2, h3, h4, h5,
                exceptBind_ok, exceptBind_error, exceptMap_ok, exceptMap_error] at h
          · simp [ChunkSection0Decode.fromReader, readArr, h1, h2, h3, h4,
              exceptBind_ok, exceptBind_error, exceptMap_ok, exceptMap_error] at h
        · simp [ChunkSection0Decode.fromReader, readArr, h1, h2, h3,
            exceptBind_ok, exceptBind_error, exceptMap_ok, exceptMap_error] at h
      · simp [ChunkSection0Decode.fromReader, readArr, h1, h2,
          exceptBind_ok, exceptBind_error, exceptMap_ok, exceptMap_error] at h
    · simp [ChunkSection0Decode.fromReader, readArr, h1,
        exceptBind_ok, exceptBind_error, exceptMap_ok, exceptMap_error] at h

/-- C7 counterexample: on a cursor of 14336 bytes with both optional flags
set, the per-section decode helper places `sky_light` at offset 8192 —
directly after `light` — and `add` at offset 10240, so `add` is *not* read
before `sky_light` as the claim states. -/
theorem decode_order_add_before_sky_cex :
    ChunkSection0Decode.fromReader (List.replicate 14336 0) 0 true true =
      .ok (⟨0, 4096, 6144, some 8192, some 10240, 12288⟩, 14336) ∧
    ¬ ((10240 : Nat) ≤ 8192) := by
  have hlen : (List.replicate 14336 (0 : Nat)).length = 14336 :=
    List.length_replicate 14336 0
  refine ⟨?_, by decide⟩
  simp only [ChunkSection0Decode.fromReader, readArr, hlen]
  norm_num [exceptBind_ok, exceptBind_error, exceptMap_ok, exceptMap_error]

/-- C7 as amended: the flat-format per-section decode helper reads the
optional `sky_light[2048]` *before* the optional `add[2048]`, i.e. the
cursor order is `blocks`, `metadata`, `light`, `sky_light?`, `add?`,
`biomes`, as the field offsets of every successful decode show. -/
theorem decode_order_sky_before_add {data : List Nat} {pos : Nat} {sky add : Bool}
    {d : ChunkSection0Decode} {pos' : Nat}
    (h : ChunkSection0Decode.fromReader data pos sky add = .ok (d, pos')) :
    d.blocks = pos ∧ d.metadata = pos + 4096 ∧ d.light = pos + 6144 ∧
    d.skyLight = (if sky then some (pos + 8192) else none) ∧
    d.add = (if add then some (pos + 8192 + (if sky then 2048 else 0)) else none) ∧
    d.biomes = pos + 8192 + (if sky then 2048 else 0) + (if add then 2048 else 0) := by
  obtain ⟨hd, _, _⟩ := sectionDecode_ok_spec h
  subst hd
  exact ⟨rfl, rfl, rfl, rfl, rfl, rfl⟩

/-- C7 witness: the amended order at the concrete 14336-byte cursor with
both flags set. -/
theorem decode_order_sky_before_add_witness :
    ChunkSection0Decode.fromReader (List.replicate 14336 0) 0 true true =
      .ok (⟨0, 4096, 6144, some 8192, some 10240, 12288⟩, 14336) ∧
    ((⟨0, 4096, 6144, some 8192, some 10240, 12288⟩ : ChunkSection0Decode).blocks = 0 ∧
     (⟨0, 4096, 6144, some 8192, some 10240, 12288⟩ : ChunkSection0Decode).metadata = 0 + 4096 ∧
     (⟨0, 4096, 6144, some 8192, some 10240, 12288⟩ : ChunkSection0Decode).light = 0 + 6144 ∧
     (⟨0, 4096, 6144, some 8192, some 10240, 12288⟩ : ChunkSection0Decode).skyLight =
       some (0 + 8192) ∧
     (⟨0, 4096, 6144, some 8192, some 10240, 12288⟩ : ChunkSection0Decode).add =
       some (0 + 8192 + 2048) ∧
     (⟨0, 4096, 6144, some 8192, some 10240, 12288⟩ : ChunkSection0Decode).biomes =
       0 + 8192 + 2048 + 2048) := by
  have hlen : (List.replicate 14336 (0 : Nat)).length = 14336 :=
    List.length_replicate 14336 0
  have h0 : ChunkSection0Decode.fromReader (List.replicate 14336 0) 0 true true =
      .ok (⟨0, 4096, 6144, some 8192, some 10240, 12288⟩, 14336) := by
    simp only [ChunkSection0Decode.fromReader, readArr, hlen]
    norm_num [exceptBind_ok, exceptBind_error, exceptMap_ok, exceptMap_error]
  exact ⟨h0, decode_order_sky_before_add h0⟩

theorem exceptBind_eq_ok {ε α β : Type} {e : Except ε α} {f : α → Except ε β} {b : β}
    (h : (e >>= f) = .ok b) : ∃ a, e = .ok a ∧ f a = .ok b := by
  cases e with
  | error err => rw [exceptBind_error] at h; cases h
  | ok a =>
    rw [exceptBind_ok] at h
    exact ⟨a, rfl, h⟩

/-- A decoded section's bytes occupy exactly its arena footprint (every
field reference produced by a successful decode lies inside the input). -/
def DecSized (data : List Nat) (d : ChunkSection0Decode) : Prop :=
  (decBytes data d).length = secSize d.skyLight.isSome d.add.isSome

theorem sectionDecode_decSized {data : List Nat} {pos : Nat} {sky add : Bool}
    {d : ChunkSection0Decode} {pos' : Nat}
    (h : ChunkSection0Decode.fromReader data pos sky add = .ok (d, pos')) :
    DecSized data d := by
  obtain ⟨hd, hp, hb⟩ := sectionDecode_ok_spec h
  subst hd
  cases sky <;> cases add <;>
    simp [DecSized, decBytes, fieldBytes, secSize, List.length_append, List.length_take,
      List.length_drop] at hb ⊢ <;>
    omega

theorem decodeSecs_sized {data : List Nat} {bm am sm : Nat} {idxs : List Nat} {pos : Nat}
    {decs : List (Option ChunkSection0Decode)} {pos' : Nat}
    (h : decodeSecs data bm am sm idxs pos = .ok (decs, pos')) :
    ∀ d, some d ∈ decs → DecSized data d := by
  induction idxs generalizing pos decs pos' with
  | nil =>
    simp only [decodeSecs, Except.ok.injEq, Prod.mk.injEq] at h
    obtain ⟨rfl, rfl⟩ := h
    intro d hd
    simp at hd
  | cons i rest ih =>
    simp only [decodeSecs] at h
    by_cases hb : bitAt bm i
    · rw [if_pos hb] at h
      obtain ⟨⟨d0, pos1⟩, hd0, h⟩ := exceptBind_eq_ok h
      obtain ⟨⟨ds, pos2⟩, hds, h⟩ := exceptBind_eq_ok h
      simp only [pure, Except.pure, Except.ok.injEq, Prod.mk.injEq] at h
      obtain ⟨rfl, rfl⟩ := h
      intro d hd
      rcases List.mem_cons.mp hd with he | hm
      · cases he
        exact sectionDecode_decSized hd0
      · exact ih hds d hm
    · rw [if_neg hb] at h
      obtain ⟨⟨ds, pos2⟩, hds, h⟩ := exceptBind_eq_ok h
      simp only [pure, Except.pure, Except.ok.injEq, Prod.mk.injEq] at h
      obtain ⟨rfl, rfl⟩ := h
      intro d hd
      rcases List.mem_cons.mp hd with he | hm
      · cases he
      · exact ih hds d hm

/-- All of a section's field references lie below `bound`. -/
def SecFits (s : ChunkSection0) (bound : Nat) : Prop :=
  s.blocks + 4096 ≤ bound ∧ s.metadata + 2048 ≤ bound ∧ s.light + 2048 ≤ bound ∧
  (∀ o, s.skyLight = some o → o + 2048 ≤ bound) ∧
  (∀ o, s.add = some o → o + 2048 ≤ bound) ∧
  s.biomes + 2048 ≤ bound

theorem SecFits.mono {s : ChunkSection0} {b b' : Nat} (h : SecFits s b) (hb : b ≤ b') :
    SecFits s b' := by
  obtain ⟨h1, h2, h3, h4, h5, h6⟩ := h
  exact ⟨by omega, by omega, by omega,
    fun o ho => by have := h4 o ho; omega,
    fun o ho => by have := h5 o ho; omega, by omega⟩

theorem layoutFields_snd (p : Nat) (sky add : Bool) :
    (layoutFields p sky add).2 = p + secSize sky add := by
  cases sky <;> cases add <;> simp [layoutFields, secSize]

theorem layoutFields_shape (p : Nat) (sky add : Bool) :
    (layoutFields p sky add).1.skyLight.isSome = sky ∧
    (layoutFields p sky add).1.add.isSome = add := by
  cases sky <;> cases add <;> simp [layoutFields]

theorem layoutFields_fits (p : Nat) (sky add : Bool) :
    SecFits (layoutFields p sky add).1 (layoutFields p sky add).2 := by
  cases sky <;> cases add <;>
    refine ⟨?_, ?_, ?_, ?_, ?_, ?_⟩ <;>
    simp [layoutFields, SecFits]

/-- The total arena footprint of a list of decoded section slots. -/
def sumSizes : List (Option ChunkSection0Decode) → Nat
  | [] => 0
  | none :: rest => sumSizes rest
  | some d :: rest => secSize d.skyLight.isSome d.add.isSome + sumSizes rest

theorem size_formula (decs : List (Option ChunkSection0Decode)) :
    (decs.filterMap id).length * ChunkColumn0.minimumSectionSize +
      ((decs.filterMap id).filter (fun d => d.skyLight.isSome)).length * 2048 +
      ((decs.filterMap id).filter (fun d => d.add.isSome)).length * 2048 =
    sumSizes decs := by
  induction decs with
  | nil => rfl
  | cons hd rest ih =>
    cases hd with
    | none => simpa [sumSizes] using ih
    | some d =>
      simp only [ChunkColumn0.minimumSectionSize] at ih
      cases hsky : d.skyLight.isSome <;> cases hadd : d.add.isSome <;>
        simp [sumSizes, hsky, hadd, secSize, ChunkColumn0.minimumSectionSize] <;>
        omega

theorem buildGo_spec (data : List Nat) :
    ∀ (decs : List (Option ChunkSection0Decode)) (p : Nat),
      (∀ d, some d ∈ decs → DecSized data d) →
      (buildGo data decs p).2.length = sumSizes decs ∧
      rebuildGo (buildGo data decs p).1 p = (buildGo data decs p).1 ∧
      (∀ s, some s ∈ (buildGo data decs p).1 →
        SecFits s (p + (buildGo data decs p).2.length)) := by
  intro decs
  induction decs with
  | nil =>
    intro p hok
    exact ⟨rfl, rfl, fun s hs => by simp [buildGo] at hs⟩
  | cons hd rest ih =>
    intro p hok
    cases hd with
    | none =>
      have hok' : ∀ d, some d ∈ rest → DecSized data d :=
        fun d hm => hok d (List.mem_cons_of_mem _ hm)
      obtain ⟨hl, hr, hf⟩ := ih p hok'
      refine ⟨?_, ?_, ?_⟩
      · simpa [buildGo, sumSizes] using hl
      · simp [buildGo, rebuildGo, hr]
      · intro s hs
        simp only [buildGo] at hs ⊢
        rcases List.mem_cons.mp hs with he | hm
        · cases he
        · exact hf s hm
    | some d =>
      have hds : DecSized data d := hok d (List.mem_cons_self _ _)
      have hok' : ∀ d, some d ∈ rest → DecSized data d :=
        fun d hm => hok d (List.mem_cons_of_mem _ hm)
      obtain ⟨hl, hr, hf⟩ := ih (layoutFields p d.skyLight.isSome d.add.isSome).2 hok'
      refine ⟨?_, ?_, ?_⟩
      · simp only [buildGo, List.length_append]
        rw [hl, hds]
        simp [sumSizes]
      · obtain ⟨hsh1, hsh2⟩ := layoutFields_shape p d.skyLight.isSome d.add.isSome
        simp only [buildGo, rebuildGo]
        rw [hsh1, hsh2, hr]
      · intro s hs
        simp only [buildGo] at hs ⊢
        rcases List.mem_cons.mp hs with he | hm
        · injection he with he'
          subst he'
          refine SecFits.mono (layoutFields_fits p d.skyLight.isSome d.add.isSome) ?_
          rw [layoutFields_snd]
          rw [List.length_append, hds]
          omega
        · have hbound := hf s hm
          refine SecFits.mono hbound ?_
          rw [layoutFields_snd]
          rw [List.length_append, hds]
          omega

theorem fieldBytes_append (b r : List Nat) (off n : Nat) (h : off + n ≤ b.length) :
    fieldBytes (b ++ r) off n = fieldBytes b off n := by
  unfold fieldBytes
  rw [List.drop_append_of_le_length (by omega : off ≤ b.length)]
  rw [List.take_append_of_le_length (by rw [List.length_drop]; omega)]

/-- All six field views of a section denote the same bytes in the two
buffers. -/
def sectionBytesEq (b bnew : List Nat) (s : ChunkSection0) : Prop :=
  fieldBytes bnew s.blocks 4096 = fieldBytes b s.blocks 4096 ∧
  fieldBytes bnew s.metadata 2048 = fieldBytes b s.metadata 2048 ∧
  fieldBytes bnew s.light 2048 = fieldBytes b s.light 2048 ∧
  (∀ o, s.skyLight = some o → fieldBytes bnew o 2048 = fieldBytes b o 2048) ∧
  (∀ o, s.add = some o → fieldBytes bnew o 2048 = fieldBytes b o 2048) ∧
  fieldBytes bnew s.biomes 2048 = fieldBytes b s.biomes 2048

theorem sectionBytesEq_of_fits {b : List Nat} (r : List Nat) {s : ChunkSection0}
    (hf : SecFits s b.length) : sectionBytesEq b (b ++ r) s := by
  obtain ⟨h1, h2, h3, h4, h5, h6⟩ := hf
  exact ⟨fieldBytes_append b r _ _ h1, fieldBytes_append b r _ _ h2,
    fieldBytes_append b r _ _ h3,
    fun o ho => fieldBytes_append b r _ _ (h4 o ho),
    fun o ho => fieldBytes_append b r _ _ (h5 o ho),
    fieldBytes_append b r _ _ h6⟩

theorem columnFromReader_ok {data : List Nat} {pos bm am sm : Nat} {col : ChunkColumn0}
    {pos' : Nat} (h : ChunkColumn0.fromReader data pos bm am sm = .ok (col, pos')) :
    ∃ decs, decodeSecs data bm am sm (List.range 16) pos = .ok (decs, pos') ∧
      col.buf = (buildGo data decs 0).2 ∧
      col.sections = (buildGo data decs 0).1 ∧
      col.size = sumSizes decs := by
  unfold ChunkColumn0.fromReader at h
  obtain ⟨⟨decs, p2⟩, hdecs, h⟩ := exceptBind_eq_ok h
  simp only [pure, Except.pure, Except.ok.injEq, Prod.mk.injEq] at h
  obtain ⟨hcol, hpos⟩ := h
  subst hpos
  refine ⟨decs, hdecs, ?_, ?_, ?_⟩ <;> rw [← hcol]
  exact size_formula decs

/-- C6: for every column produced by `from_reader` and every `M > 0`,
`reallocate::<M>` succeeds and yields a column with the same sections
(every present slot stays present with the same optional-field shape and
even the same offsets), a buffer that is the old bytes followed by the
fresh `M`-byte tail, size grown by `M`, and the view `(old_size, M)` of
the fresh tail; moreover every field of every existing section denotes
byte-for-byte the same contents as before the reallocation. -/
theorem reallocate_preserves_sections {data : List Nat} {pos bm am sm pos' M : Nat}
    {col : ChunkColumn0}
    (h : ChunkColumn0.fromReader data pos bm am sm = .ok (col, pos')) (hM : 0 < M) :
    ChunkColumn0.reallocate M col =
      some ({ buf := col.buf ++ List.replicate M 0, size := col.size + M,
              sections := col.sections }, (col.size, M)) ∧
    ∀ s, some s ∈ col.sections →
      sectionBytesEq col.buf (col.buf ++ List.replicate M 0) s := by
  obtain ⟨decs, hdecs, hbuf, hsecs, hsize⟩ := columnFromReader_ok h
  have hsz := decodeSecs_sized hdecs
  obtain ⟨hl, hr, hf⟩ := buildGo_spec data decs 0 hsz
  have hblen : col.buf.length = col.size := by rw [hbuf, hl, hsize]
  constructor
  · unfold ChunkColumn0.reallocate
    rw [if_neg (by omega)]
    have ht : col.buf.take col.size = col.buf := by
      rw [← hblen]
      exact List.take_length col.buf
    have hrg : rebuildGo col.sections 0 = col.sections := by
      rw [hsecs]
      exact hr
    rw [ht, hrg]
  · intro s hs
    have hfit : SecFits s col.buf.length := by
      have hb := hf s (by rw [← hsecs]; exact hs)
      rw [hbuf]
      simpa using hb
    exact sectionBytesEq_of_fits _ hfit

/-- C6 witness: the empty column (bitmask 0) reallocated by one byte. -/
theorem reallocate_preserves_sections_witness :
    ChunkColumn0.fromReader [] 0 0 0 0 =
      .ok (⟨[], 0, [none, none, none, none, none, none, none, none, none, none, none, none,
                    none, none, none, none]⟩, 0) ∧
    (0 : Nat) < 1 ∧
    ChunkColumn0.reallocate 1
        ⟨[], 0, [none, none, none, none, none, none, none, none, none, none, none, none,
                 none, none, none, none]⟩ =
      some (⟨[] ++ List.replicate 1 0, 0 + 1,
             [none, none, none, none, none, none, none, none, none, none, none, none,
              none, none, none, none]⟩, (0, 1)) := by
  have h0 : ChunkColumn0.fromReader [] 0 0 0 0 =
      .ok (⟨[], 0, [none, none, none, none, none, none, none, none, none, none, none, none,
                    none, none, none, none]⟩, 0) := rfl
  exact ⟨h0, by decide, (reallocate_preserves_sections h0 (by decide)).1⟩
